import Mathlib

/-!
Shallow embedding of the multi-camera RTSP frame-ingestion code
(`Submissions/assignment_final_2025-02-19/{ffmpeg,gstreamer,multicam_visualizer}.py`
and the `Submissions/assignment3_2025-02-12` report variants).

Timestamps are rationals, embedding the real-valued `time.time()` readings;
decoded frames are opaque natural-number payloads.  The python polling loops
are modelled with explicit fuel standing for the number of further polls the
wall-clock timeout allows before it fires.
-/

namespace Onboarding

/-- A decoded frame is opaque to the ingestion core; only an identifying
payload is tracked. -/
abbrev Frame := Nat

/-- Wall-clock timestamps (`time.time()` floats) embedded as rationals. -/
abbrev Time := ℚ

/-- State of `FFmpegSingleCam` (`ffmpeg.py`): the capture handle, the read
counters, and the latest-frame slot (`__latest_frame`/`__latest_timestamp`). -/
structure FFmpegCam where
  cap : Option Nat
  first_start_time : Option Time
  frame_count : Nat
  read_start_time : Option Time
  latest_frame : Option Frame
  latest_timestamp : Option Time
  deriving Repr, DecidableEq

/-- The state produced by `FFmpegSingleCam.__init__`. -/
def FFmpegCam.init : FFmpegCam :=
  { cap := none, first_start_time := none, frame_count := 0,
    read_start_time := none, latest_frame := none, latest_timestamp := none }

/-- Outcome of one connection attempt of `connect_cam`: `cv2.VideoCapture`
followed by a probing `cap.read()`.  `readFail` covers both an unopened
capture and a failed probe read (`not ret or frame is None`), the paths on
which `ffmpeg.py` line 47 releases the handle. -/
inductive ProbeOutcome where
  | readFail
  | ok (f : Frame)
  deriving Repr, DecidableEq

/-- Result of a `connect_cam` run, with handle accounting: `handlesOpened`
counts `cv2.VideoCapture` handles created, `handlesReleased` counts
`cap.release()` calls. -/
structure ConnectResult where
  ok : Bool
  cam : FFmpegCam
  attemptsMade : Nat
  handlesOpened : Nat
  handlesReleased : Nat
  deriving Repr, DecidableEq

/-- `FFmpegSingleCam.connect_cam` (`ffmpeg.py` lines 26-58) from attempt
number `attempt` with the given number of attempts remaining: a failed probe
releases the handle and retries after the sleep; a successful probe keeps the
handle, sets `__first_start_time` if unset, and stores the probe frame and
its timestamp in the latest-frame slot. -/
def connectCamFrom (outcomes : Nat → ProbeOutcome) (clock : Nat → Time)
    (cam : FFmpegCam) (attempt : Nat) : Nat → ConnectResult
  | 0 => { ok := false, cam := cam, attemptsMade := 0,
           handlesOpened := 0, handlesReleased := 0 }
  | n + 1 =>
    match outcomes attempt with
    | .readFail =>
      let r := connectCamFrom outcomes clock cam (attempt + 1) n
      { r with attemptsMade := r.attemptsMade + 1,
               handlesOpened := r.handlesOpened + 1,
               handlesReleased := r.handlesReleased + 1 }
    | .ok f =>
      { ok := true,
        cam := { cam with
          cap := some attempt,
          first_start_time := some (cam.first_start_time.getD (clock attempt)),
          latest_frame := some f,
          latest_timestamp := some (clock attempt) },
        attemptsMade := 1, handlesOpened := 1, handlesReleased := 0 }

/-- `FFmpegSingleCam.connect_cam` with `try_times` attempts. -/
def connect_cam (outcomes : Nat → ProbeOutcome) (clock : Nat → Time)
    (cam : FFmpegCam) (tryTimes : Nat) : ConnectResult :=
  connectCamFrom outcomes clock cam 0 tryTimes

/-- Outcome of one attempt of `RTSPStreamer.connect_server`: the capture may
fail `isOpened()`, or open and fail the probe read, or succeed. -/
inductive ServerProbe where
  | openFail
  | readFail
  | ok (f : Frame)
  deriving Repr, DecidableEq

/-- Result of a `connect_server` run, with the same handle accounting. -/
structure ServerConnectResult where
  ok : Bool
  cap : Option Nat
  attemptsMade : Nat
  handlesOpened : Nat
  handlesReleased : Nat
  deriving Repr, DecidableEq

/-- `RTSPStreamer.connect_server` (`run_ffmpeg_oop_multi_proc_report.py`
lines 32-58): each attempt overwrites `self.cap` with a fresh
`cv2.VideoCapture`; no path of this function calls `release()`.  Handles are
counted as opened when `isOpened()` holds. -/
def connectServerFrom (outcomes : Nat → ServerProbe) (cap : Option Nat)
    (attempt : Nat) : Nat → ServerConnectResult
  | 0 => { ok := false, cap := cap, attemptsMade := 0,
           handlesOpened := 0, handlesReleased := 0 }
  | n + 1 =>
    match outcomes attempt with
    | .openFail =>
      let r := connectServerFrom outcomes (some attempt) (attempt + 1) n
      { r with attemptsMade := r.attemptsMade + 1 }
    | .readFail =>
      let r := connectServerFrom outcomes (some attempt) (attempt + 1) n
      { r with attemptsMade := r.attemptsMade + 1,
               handlesOpened := r.handlesOpened + 1 }
    | .ok _ =>
      { ok := true, cap := some attempt, attemptsMade := 1,
        handlesOpened := 1, handlesReleased := 0 }

/-- `RTSPStreamer.connect_server` with `try_times` attempts (from a fresh
streamer, `self.cap = None` and `self.stopped = False`). -/
def connect_server (outcomes : Nat → ServerProbe) (tryTimes : Nat) :
    ServerConnectResult :=
  connectServerFrom outcomes none 0 tryTimes

/-- Outcome of one `self.__cap.read()` poll: `some f` on a successful decode,
`none` when `ret` is false or the frame is `None`. -/
abbrev ReadOutcome := Option Frame

/-- The success branch of `grab_frame` (`ffmpeg.py` lines 74-83): store the
frame and its timestamp in the latest-frame slot, bump `frame_count`, and on
the second frame record `read_start_time`. -/
def camSucc (cam : FFmpegCam) (f : Frame) (t : Time) : FFmpegCam :=
  { cam with
    latest_frame := some f,
    latest_timestamp := some t,
    frame_count := cam.frame_count + 1,
    read_start_time :=
      if cam.frame_count + 1 = 2 ∧ cam.read_start_time = none
      then some t else cam.read_start_time }

/-- The polling loop of `FFmpegSingleCam.grab_frame` (`ffmpeg.py` lines
67-88): `reads i` is the outcome of the `i`-th `cap.read()`, `clock i` the
wall time right after that poll, and the fuel argument the number of further
polls the timeout still allows.  A failed poll is retried until the fuel is
exhausted. -/
def grabLoop (reads : Nat → ReadOutcome) (clock : Nat → Time) (cam : FFmpegCam) :
    Nat → Nat → Option (Frame × Time) × FFmpegCam
  | i, 0 =>
    match reads i with
    | some f => (some (f, clock i), camSucc cam f (clock i))
    | none => (none, cam)
  | i, fuel + 1 =>
    match reads i with
    | some f => (some (f, clock i), camSucc cam f (clock i))
    | none => grabLoop reads clock cam (i + 1) fuel

/-- `FFmpegSingleCam.grab_frame` (`ffmpeg.py` lines 60-88): `None` at once
when no capture handle exists, otherwise the polling loop. -/
def grab_frame (reads : Nat → ReadOutcome) (clock : Nat → Time)
    (cam : FFmpegCam) (fuel : Nat) : Option (Frame × Time) × FFmpegCam :=
  match cam.cap with
  | none => (none, cam)
  | some _ => grabLoop reads clock cam 0 fuel

/-- `FFmpegSingleCam.get_frame` (`ffmpeg.py` lines 90-98): the latest frame
and timestamp when both are present, without clearing them. -/
def get_frame (cam : FFmpegCam) : Option (Frame × Time) :=
  match cam.latest_frame, cam.latest_timestamp with
  | some f, some t => some (f, t)
  | _, _ => none

/-- The bufferless shared cell of the threaded variant
(`run_ffmpeg_oop_multi_thread_report.py`): `self.latest_frame` and
`self.latest_timestamp`, accessed under `self.lock`. -/
structure FrameSlot where
  latest_frame : Option Frame
  latest_timestamp : Option Time
  deriving Repr, DecidableEq

/-- One successful read in `RTSPStreamer._capture_loop` (thread report,
lines 100-106): an unconditional overwrite of both slot fields under the
lock. -/
def publish (s : FrameSlot) (f : Frame) (t : Time) : FrameSlot :=
  let _ := s
  ⟨some f, some t⟩

/-- A sequence of completed publishes applied in order. -/
def publishAll (s : FrameSlot) : List (Frame × Time) → FrameSlot
  | [] => s
  | r :: rs => publishAll (publish s r.1 r.2) rs

/-- The consumer-side read of the slot (`process_streamers` lines 139-141,
same shape as `FFmpegSingleCam.get_frame`): non-destructive, whole-record. -/
def peek (s : FrameSlot) : Option (Frame × Time) :=
  match s.latest_frame, s.latest_timestamp with
  | some f, some t => some (f, t)
  | _, _ => none

/-- The de-duplication gate of `MultiCamVisualizer.__display_frame`
(`multicam_visualizer.py` lines 92-94) applied to a whole candidate stream:
a candidate timestamp equal to the last displayed one is skipped, anything
else is delivered and becomes the new last-displayed timestamp. -/
def deliveredList (last : Option Time) : List Time → List Time
  | [] => []
  | t :: ts =>
    if last = some t then deliveredList last ts
    else t :: deliveredList (some t) ts

/-- Per-window display bookkeeping of `MultiCamVisualizer`
(`__last_displayed_timestamps`, `__display_frame_counts`,
`__display_start_times`). -/
structure DisplayStats where
  last : Option Time
  count : Nat
  start : Option Time
  deriving Repr, DecidableEq

/-- The fresh display bookkeeping installed by `connect_cameras`
(`multicam_visualizer.py` lines 77-79). -/
def DisplayStats.init : DisplayStats := ⟨none, 0, none⟩

/-- The state part of `MultiCamVisualizer.__display_frame`
(`multicam_visualizer.py` lines 92-111): the de-duplication gate, the
counter bump, and the start-time rule (start time taken when the counter
reaches 2 and no start time is set yet).  `t` is `sample_time`, `now` the
`current_time` read inside the call. -/
def displayFrameStep (d : DisplayStats) (t now : Time) : DisplayStats :=
  if d.last = some t then d
  else
    { last := some t, count := d.count + 1,
      start :=
        if d.count + 1 = 2 ∧ d.start = none then some now else d.start }

/-- The counter pattern shared by `grab_frame` and `__display_frame`: the
count is bumped on every sample, the time base opens at the second sample. -/
def bump (c : Nat × Option Time) (t : Time) : Nat × Option Time :=
  (c.1 + 1, if c.1 + 1 = 2 ∧ c.2 = none then some t else c.2)

/-- The FPS report of `MultiCamVisualizer.__evaluate_read_fps` and
`__evaluate_visual_fps` (`multicam_visualizer.py` lines 310-338) for one
source: `none` stands for the "Not enough frames" report.  Python truthiness
(`if start:`) makes a zero start time count as unset; otherwise the rate is
`(count - 1) / elapsed` when the elapsed time is positive and `0.0` when it
is not. -/
def evaluateFps (count : Nat) (start : Option Time) (now : Time) : Option ℚ :=
  match start with
  | none => none
  | some s =>
    if s = 0 then none
    else if now - s > 0 then some (((count : ℚ) - 1) / (now - s)) else some 0

/-- The display-stats update of `RTSPStreamer.run`
(`run_ffmpeg_oop_multi_proc_report.py` lines 91-96): same de-duplication
gate, but the start time is taken at the FIRST new frame, not the second. -/
def procDisplayStep (d : DisplayStats) (t now : Time) : DisplayStats :=
  if d.last = some t then d
  else
    { last := some t, count := d.count + 1,
      start := if d.start = none then some now else d.start }

/-- The in-loop FPS line of `RTSPStreamer.run`
(`run_ffmpeg_oop_multi_proc_report.py` lines 97-98):
`display_frame_count / max(now - start, 1e-6)` — the count is not
decremented and the time base is the first displayed frame.  Python
truthiness treats a zero start time like `None`. -/
def procDisplayFps (d : DisplayStats) (now : Time) : ℚ :=
  match d.start with
  | some s =>
    if s = 0 then (d.count : ℚ) / (1 / 1000000)
    else (d.count : ℚ) / max (now - s) (1 / 1000000)
  | none => (d.count : ℚ) / (1 / 1000000)

/-- State of `GStreamerSingleCam` relevant to frame hand-off
(`gstreamer.py`): the latest-frame cell written by `__on_new_sample`.
Records are tagged publish occurrences. -/
abbrev GstSlot := Option (Frame × Time)

/-- `GStreamerSingleCam.grab_frame` (`gstreamer.py` lines 165-183): while
the latest-frame cell is empty, one GLib main-context iteration is run per
poll; `events` lists the samples `__on_new_sample` publishes during those
iterations before the timeout fires.  On success the cell is read and then
cleared.  Returns the result, the new cell, and the events not yet
consumed. -/
def gstGrab (slot : GstSlot) (events : List (Frame × Time)) :
    Option (Frame × Time) × GstSlot × List (Frame × Time) :=
  match slot with
  | some r => (some r, none, events)
  | none =>
    match events with
    | [] => (none, none, [])
    | e :: rest => (some e, none, rest)

/-- `GStreamerSingleCam.get_frame` (`gstreamer.py` lines 185-192): returns
the cell without clearing it. -/
def gstGet (slot : GstSlot) : Option (Frame × Time) :=
  slot

/-- One iteration's worth of environment for the per-source loops: the
backend poll outcomes and poll clock inside this iteration's `grab_frame`
call, the poll budget of the 1-second timeout, the wall time read right
before the grab (`capture_time` in `__capture_loop`), and the wall time
read inside `__display_frame` (`current_time`). -/
structure Iter where
  reads : Nat → ReadOutcome
  clock : Nat → Time
  fuel : Nat
  preTime : Time
  obsTime : Time

/-- Per-source state of the sequential strategy: the streamer and its
display bookkeeping. -/
structure SeqState where
  cam : FFmpegCam
  disp : DisplayStats

/-- One per-source turn of `MultiCamVisualizer.__run_sequential`
(`multicam_visualizer.py` lines 136-144) in visualized mode: one
`grab_frame(timeout=1.0)`, and on success `__display_frame` keyed by the
frame's own timestamp. -/
def seqIter (s : SeqState) (it : Iter) : SeqState :=
  match grab_frame it.reads it.clock s.cam it.fuel with
  | (none, cam') => { s with cam := cam' }
  | (some (_, t), cam') =>
    { cam := cam', disp := displayFrameStep s.disp t it.obsTime }

/-- The sequential per-source loop over a schedule of iterations: a failed
grab does not break this loop. -/
def seqRun (s : SeqState) : List Iter → SeqState
  | [] => s
  | it :: its => seqRun (seqIter s it) its

/-- Result of a `__capture_loop` run. -/
structure LoopState where
  cam : FFmpegCam
  disp : DisplayStats
  pulls : Nat
  broke : Bool
  deriving Repr, DecidableEq

/-- `MultiCamVisualizer.__capture_loop` (`multicam_visualizer.py` lines
153-190): each scheduled iteration performs one `grab_frame`; a `None`
result breaks the loop at once (line 169-171) — the loop body contains no
reconnect call.  When `display` holds, a successful grab runs
`__display_frame` with `capture_time` (read before the grab) as the sample
time; the multithread strategy passes `display=False` (line 205), so its
workers never touch the display bookkeeping. -/
def captureLoop (display : Bool) (s : LoopState) : List Iter → LoopState
  | [] => s
  | it :: its =>
    match grab_frame it.reads it.clock s.cam it.fuel with
    | (none, cam') =>
      { s with cam := cam', pulls := s.pulls + 1, broke := true }
    | (some _, cam') =>
      captureLoop display
        { s with cam := cam',
                 disp := if display
                         then displayFrameStep s.disp it.preTime it.obsTime
                         else s.disp,
                 pulls := s.pulls + 1 } its

/-- The timestamps of the successful grabs a sequential per-source run
performs along a schedule (the producer-side sample sequence). -/
def seqTimes (cam : FFmpegCam) : List Iter → List Time
  | [] => []
  | it :: its =>
    match grab_frame it.reads it.clock cam it.fuel with
    | (none, cam') => seqTimes cam' its
    | (some (_, t), cam') => t :: seqTimes cam' its

/-- The consumer observation times (`current_time` inside `__display_frame`)
of the frames a sequential run actually delivers, i.e. the candidates that
pass the de-duplication gate. -/
def seqObsTimes (cam : FFmpegCam) (last : Option Time) : List Iter → List Time
  | [] => []
  | it :: its =>
    match grab_frame it.reads it.clock cam it.fuel with
    | (none, cam') => seqObsTimes cam' last its
    | (some (_, t), cam') =>
      if last = some t then seqObsTimes cam' last its
      else it.obsTime :: seqObsTimes cam' (some t) its

/-- Closed form of the time base left behind by a run of `bump`s that
started from count `n` and base `s`. -/
def startAfter (n : Nat) (s : Option Time) (ts : List Time) : Option Time :=
  match s with
  | some v => some v
  | none =>
    match n with
    | 0 => ts[1]?
    | 1 => ts[0]?
    | _ + 2 => none

/-- A freshly connected camera used as a concrete test input. -/
def wCam : FFmpegCam := { FFmpegCam.init with cap := some 0 }

/-- A concrete two-iteration schedule on which every grab succeeds at the
first poll, with distinct frame timestamps, pre-grab times and observation
times. -/
def wIts : List Iter :=
  [⟨fun _ => some 7, fun _ => (1 : Time), 1, 11, 21⟩,
    ⟨fun _ => some 8, fun _ => (2 : Time), 1, 12, 22⟩]

/-! ### Lemmas about the polling loop of `grab_frame` -/

theorem grabLoop_none_state (reads : Nat → ReadOutcome) (clock : Nat → Time)
    (cam : FFmpegCam) :
    ∀ fuel i, (grabLoop reads clock cam i fuel).1 = none →
      (grabLoop reads clock cam i fuel).2 = cam := by
  intro fuel
  induction fuel with
  | zero =>
    intro i h
    simp only [grabLoop] at h ⊢
    cases hr : reads i with
    | none => simp [hr]
    | some f => simp [hr] at h
  | succ fuel ih =>
    intro i h
    simp only [grabLoop] at h ⊢
    cases hr : reads i with
    | none =>
      simp only [hr] at h ⊢
      exact ih (i + 1) h
    | some f => simp [hr] at h

theorem grabLoop_some_state (reads : Nat → ReadOutcome) (clock : Nat → Time)
    (cam : FFmpegCam) :
    ∀ fuel i f t, (grabLoop reads clock cam i fuel).1 = some (f, t) →
      (grabLoop reads clock cam i fuel).2 = camSucc cam f t := by
  intro fuel
  induction fuel with
  | zero =>
    intro i f t h
    simp only [grabLoop] at h ⊢
    cases hr : reads i with
    | none => simp [hr] at h
    | some f' =>
      simp only [hr, Option.some.injEq, Prod.mk.injEq] at h ⊢
      rw [← h.1, ← h.2]
  | succ fuel ih =>
    intro i f t h
    simp only [grabLoop] at h ⊢
    cases hr : reads i with
    | none =>
      simp only [hr] at h ⊢
      exact ih (i + 1) f t h
    | some f' =>
      simp only [hr, Option.some.injEq, Prod.mk.injEq] at h ⊢
      rw [← h.1, ← h.2]

theorem grab_frame_none_state (reads : Nat → ReadOutcome) (clock : Nat → Time)
    (cam : FFmpegCam) (fuel : Nat)
    (h : (grab_frame reads clock cam fuel).1 = none) :
    (grab_frame reads clock cam fuel).2 = cam := by
  unfold grab_frame at h ⊢
  cases hcap : cam.cap with
  | none => simp
  | some hdl =>
    simp only [hcap] at h ⊢
    exact grabLoop_none_state reads clock cam fuel 0 h

theorem grab_frame_some_state (reads : Nat → ReadOutcome) (clock : Nat → Time)
    (cam : FFmpegCam) (fuel : Nat) (f : Frame) (t : Time)
    (h : (grab_frame reads clock cam fuel).1 = some (f, t)) :
    (grab_frame reads clock cam fuel).2 = camSucc cam f t := by
  unfold grab_frame at h ⊢
  cases hcap : cam.cap with
  | none => simp [hcap] at h
  | some hdl =>
    simp only [hcap] at h ⊢
    exact grabLoop_some_state reads clock cam fuel 0 f t h

theorem camSucc_cap (cam : FFmpegCam) (f : Frame) (t : Time) :
    (camSucc cam f t).cap = cam.cap := rfl

theorem camSucc_count (cam : FFmpegCam) (f : Frame) (t : Time) :
    (camSucc cam f t).frame_count = cam.frame_count + 1 := rfl

/-! ### FrameSlot: last write wins (C7) -/

theorem publishAll_append (s : FrameSlot) (l1 l2 : List (Frame × Time)) :
    publishAll s (l1 ++ l2) = publishAll (publishAll s l1) l2 := by
  induction l1 generalizing s with
  | nil => rfl
  | cons r rs ih => simpa [publishAll] using ih (publish s r.1 r.2)

/-- C7: after any sequence of completed publishes ending with the records
`r1` then `r2`, a peek returns the record of the later publish `r2`, and
never the earlier `r1` (unless they are the very same record): `publish` is
an unconditional whole-record replacement. -/
theorem c7_last_write_wins (s : FrameSlot) (ps : List (Frame × Time))
    (r1 r2 : Frame × Time) :
    peek (publishAll s (ps ++ [r1, r2])) = some r2 ∧
      (r1 ≠ r2 → peek (publishAll s (ps ++ [r1, r2])) ≠ some r1) := by
  obtain ⟨f2, t2⟩ := r2
  have hpk : peek (publishAll s (ps ++ [r1, (f2, t2)])) = some (f2, t2) := by
    rw [publishAll_append]
    rfl
  refine ⟨hpk, fun hne hcontra => hne ?_⟩
  rw [hpk] at hcontra
  exact (Option.some.injEq _ _ ▸ hcontra.symm ▸ rfl)

theorem c7_last_write_wins_witness :
    peek (publishAll ⟨none, none⟩ ([] ++ [((1 : Frame), (1 : Time)), (2, 2)])) = some (2, 2) ∧
      (((1 : Frame), (1 : Time)) ≠ ((2 : Frame), (2 : Time)) →
        peek (publishAll ⟨none, none⟩ ([] ++ [((1 : Frame), (1 : Time)), (2, 2)])) ≠
          some (1, 1)) :=
  c7_last_write_wins ⟨none, none⟩ [] (1, 1) (2, 2)

/-! ### connect: retry accounting and handle release (C4) -/

theorem connectCamFrom_all_fail (outcomes : Nat → ProbeOutcome) (clock : Nat → Time)
    (cam : FFmpegCam) (hfail : ∀ j, outcomes j = ProbeOutcome.readFail) :
    ∀ n attempt, connectCamFrom outcomes clock cam attempt n =
      { ok := false, cam := cam, attemptsMade := n,
        handlesOpened := n, handlesReleased := n } := by
  intro n
  induction n with
  | zero => intro attempt; rfl
  | succ n ih =>
    intro attempt
    simp only [connectCamFrom, hfail attempt, ih (attempt + 1)]

/-- C4 (amended): for a backend whose probe read never succeeds,
`connect_cam` makes exactly `n` attempts, returns `False` rather than
raising, releases every one of the `n` handles it opened, and leaves the
camera state untouched (still disconnected).  The cited
`RTSPStreamer.connect_server`, in contrast, releases nothing
(`c4_counterexample`). -/
theorem c4_amended_connect_cam (outcomes : Nat → ProbeOutcome) (clock : Nat → Time)
    (cam : FFmpegCam) (n : Nat) (hn : 1 ≤ n)
    (hfail : ∀ j, outcomes j = ProbeOutcome.readFail) :
    connect_cam outcomes clock cam n =
      { ok := false, cam := cam, attemptsMade := n,
        handlesOpened := n, handlesReleased := n } := by
  have := hn
  exact connectCamFrom_all_fail outcomes clock cam hfail n 0

theorem c4_amended_connect_cam_witness :
    1 ≤ 3 ∧ (∀ j : Nat, (fun _ => ProbeOutcome.readFail) j = ProbeOutcome.readFail) ∧
      connect_cam (fun _ => ProbeOutcome.readFail) (fun _ => (0 : Time)) FFmpegCam.init 3 =
        { ok := false, cam := FFmpegCam.init, attemptsMade := 3,
          handlesOpened := 3, handlesReleased := 3 } :=
  ⟨by decide, fun _ => rfl,
    c4_amended_connect_cam (fun _ => ProbeOutcome.readFail) (fun _ => (0 : Time))
      FFmpegCam.init 3 (by decide) (fun _ => rfl)⟩

/-- C4 is false for the cited `RTSPStreamer.connect_server`
(`run_ffmpeg_oop_multi_proc_report.py` lines 32-58): with one attempt
against a backend that opens but never yields a probe frame, it returns
failure after the attempt but the opened handle is never released —
`self.cap` still holds it. -/
theorem c4_counterexample :
    connect_server (fun _ => ServerProbe.readFail) 1 =
      { ok := false, cap := some 0, attemptsMade := 1,
        handlesOpened := 1, handlesReleased := 0 } ∧
      (connect_server (fun _ => ServerProbe.readFail) 1).handlesOpened ≠
        (connect_server (fun _ => ServerProbe.readFail) 1).handlesReleased := by
  exact ⟨rfl, by decide⟩

/-! ### A successful connect populates the latest-frame slot (C9) -/

theorem connectCamFrom_ok_slot (outcomes : Nat → ProbeOutcome) (clock : Nat → Time)
    (cam : FFmpegCam) :
    ∀ n attempt, (connectCamFrom outcomes clock cam attempt n).ok = true →
      ∃ j f, attempt ≤ j ∧ j < attempt + n ∧ outcomes j = ProbeOutcome.ok f ∧
        (connectCamFrom outcomes clock cam attempt n).cam.latest_frame = some f ∧
        (connectCamFrom outcomes clock cam attempt n).cam.latest_timestamp =
          some (clock j) := by
  intro n
  induction n with
  | zero => intro attempt h; simp [connectCamFrom] at h
  | succ n ih =>
    intro attempt h
    rcases ho : outcomes attempt with _ | f
    · simp only [connectCamFrom, ho] at h ⊢
      obtain ⟨j, f, hj1, hj2, hj3, hj4, hj5⟩ := ih (attempt + 1) h
      exact ⟨j, f, by omega, by omega, hj3, hj4, hj5⟩
    · refine ⟨attempt, f, le_refl _, by omega, ho, ?_, ?_⟩ <;>
        simp [connectCamFrom, ho]

/-- C9: if `connect_cam` returns `True` then the latest-frame slot already
holds the successful probe frame and its timestamp, so an immediate
`get_frame` returns it rather than `None`. -/
theorem c9_connect_populates_slot (outcomes : Nat → ProbeOutcome) (clock : Nat → Time)
    (cam : FFmpegCam) (n : Nat)
    (h : (connect_cam outcomes clock cam n).ok = true) :
    ∃ j f, j < n ∧ outcomes j = ProbeOutcome.ok f ∧
      get_frame (connect_cam outcomes clock cam n).cam = some (f, clock j) := by
  obtain ⟨j, f, _, hj2, hj3, hj4, hj5⟩ :=
    connectCamFrom_ok_slot outcomes clock cam n 0 h
  refine ⟨j, f, by omega, hj3, ?_⟩
  unfold get_frame connect_cam
  rw [hj4, hj5]

theorem c9_connect_populates_slot_witness :
    (connect_cam (fun _ => ProbeOutcome.ok 3) (fun _ => (10 : Time))
        FFmpegCam.init 1).ok = true ∧
      ∃ j f, j < 1 ∧ (fun _ => ProbeOutcome.ok 3) j = ProbeOutcome.ok f ∧
        get_frame (connect_cam (fun _ => ProbeOutcome.ok 3) (fun _ => (10 : Time))
            FFmpegCam.init 1).cam = some (f, (fun _ => (10 : Time)) j) :=
  ⟨rfl, c9_connect_populates_slot (fun _ => ProbeOutcome.ok 3) (fun _ => (10 : Time))
    FFmpegCam.init 1 rfl⟩

/-! ### GStreamer grab is destructive (C10) -/

/-- C10: when `GStreamerSingleCam.grab_frame` succeeds it clears
`self.latest_frame`, so `get_frame` right after returns `None`, and two
consecutive successful grabs never return the same published record
(provided the already-buffered record is not among the still-pending
publishes and the pending publishes are pairwise distinct). -/
theorem c10_grab_destructive (slot : GstSlot) (evs : List (Frame × Time))
    (hslot : ∀ r, slot = some r → r ∉ evs) (hnd : evs.Nodup) :
    (∀ r, (gstGrab slot evs).1 = some r → gstGet (gstGrab slot evs).2.1 = none) ∧
      (∀ r1 r2, (gstGrab slot evs).1 = some r1 →
        (gstGrab (gstGrab slot evs).2.1 (gstGrab slot evs).2.2).1 = some r2 →
        r1 ≠ r2) := by
  cases slot with
  | some r0 =>
    refine ⟨fun r _ => rfl, fun r1 r2 h1 h2 => ?_⟩
    simp only [gstGrab, Option.some.injEq] at h1
    cases evs with
    | nil => simp [gstGrab] at h2
    | cons e rest =>
      simp only [gstGrab, Option.some.injEq] at h2
      intro hEq
      exact hslot r0 rfl (by
        rw [h1, hEq, ← h2]
        exact List.mem_cons_self e rest)
  | none =>
    cases evs with
    | nil =>
      constructor
      · intro r h
        simp [gstGrab] at h
      · intro r1 r2 h1 _
        simp [gstGrab] at h1
    | cons e rest =>
      refine ⟨fun r _ => rfl, fun r1 r2 h1 h2 => ?_⟩
      simp only [gstGrab, Option.some.injEq] at h1
      cases rest with
      | nil => simp [gstGrab] at h2
      | cons e2 rest2 =>
        simp only [gstGrab, Option.some.injEq] at h2
        intro hEq
        have hmem : e ∉ e2 :: rest2 := (List.nodup_cons.mp hnd).1
        exact hmem (by rw [h1, hEq, ← h2]; exact List.mem_cons_self e2 rest2)

theorem c10_grab_destructive_witness :
    (∀ r : Frame × Time, (some ((1 : Frame), (1 : Time))) = some r →
        r ∉ [((2 : Frame), (2 : Time))]) ∧
      [((2 : Frame), (2 : Time))].Nodup ∧
      ((∀ r, (gstGrab (some (1, 1)) [((2 : Frame), (2 : Time))]).1 = some r →
          gstGet (gstGrab (some (1, 1)) [((2 : Frame), (2 : Time))]).2.1 = none) ∧
        (∀ r1 r2, (gstGrab (some (1, 1)) [((2 : Frame), (2 : Time))]).1 = some r1 →
          (gstGrab (gstGrab (some (1, 1)) [((2 : Frame), (2 : Time))]).2.1
              (gstGrab (some (1, 1)) [((2 : Frame), (2 : Time))]).2.2).1 = some r2 →
          r1 ≠ r2)) :=
  ⟨fun r hr => by cases hr; decide, by decide,
    c10_grab_destructive (some (1, 1)) [((2 : Frame), (2 : Time))]
      (fun r hr => by cases hr; decide) (by decide)⟩

/-! ### grab_frame retries within its timeout budget (C5) -/

theorem grabLoop_all_fail (reads : Nat → ReadOutcome) (clock : Nat → Time)
    (cam : FFmpegCam) :
    ∀ fuel i, (∀ k, k ≤ fuel → reads (i + k) = none) →
      grabLoop reads clock cam i fuel = (none, cam) := by
  intro fuel
  induction fuel with
  | zero =>
    intro i h
    have h0 : reads i = none := by simpa using h 0 (le_refl 0)
    simp [grabLoop, h0]
  | succ fuel ih =>
    intro i h
    have h0 : reads i = none := by simpa using h 0 (Nat.zero_le _)
    simp only [grabLoop, h0]
    apply ih
    intro k hk
    have hk1 := h (k + 1) (by omega)
    have heq : i + 1 + k = i + (k + 1) := by omega
    rw [heq]
    exact hk1

theorem grabLoop_first_succ (reads : Nat → ReadOutcome) (clock : Nat → Time)
    (cam : FFmpegCam) :
    ∀ j fuel i f, j ≤ fuel → reads (i + j) = some f →
      (∀ k, k < j → reads (i + k) = none) →
      grabLoop reads clock cam i fuel =
        (some (f, clock (i + j)), camSucc cam f (clock (i + j))) := by
  intro j
  induction j with
  | zero =>
    intro fuel i f _ hs _
    have hs' : reads i = some f := by simpa using hs
    cases fuel <;> simp [grabLoop, hs']
  | succ j ih =>
    intro fuel i f hj hs hpre
    have h0 : reads i = none := by simpa using hpre 0 (Nat.succ_pos j)
    cases fuel with
    | zero => omega
    | succ fuel =>
      simp only [grabLoop, h0]
      have heq : i + (j + 1) = i + 1 + j := by omega
      rw [heq] at hs ⊢
      exact ih fuel (i + 1) f (by omega) hs (fun k hk => by
        have hk1 := hpre (k + 1) (by omega)
        have heq2 : i + 1 + k = i + (k + 1) := by omega
        rw [heq2]
        exact hk1)

/-- C5 (amended): `grab_frame` does retry the read itself — after a failed
`cap.read()` it polls again until its timeout budget runs out, returning the
first successful read within the budget; it returns failure only when every
read within the budget fails (or no capture handle exists).  Only
*reconnect* policy lives outside this primitive. -/
theorem c5_amended_grab_frame (reads : Nat → ReadOutcome) (clock : Nat → Time)
    (cam : FFmpegCam) (fuel : Nat) (hdl : Nat) (hcap : cam.cap = some hdl) :
    ((∀ k, k ≤ fuel → reads k = none) → grab_frame reads clock cam fuel = (none, cam)) ∧
      (∀ j f, j ≤ fuel → reads j = some f → (∀ k, k < j → reads k = none) →
        grab_frame reads clock cam fuel =
          (some (f, clock j), camSucc cam f (clock j))) := by
  constructor
  · intro h
    unfold grab_frame
    rw [hcap]
    exact grabLoop_all_fail reads clock cam fuel 0 (fun k hk => by
      simpa using h k hk)
  · intro j f hj hs hpre
    unfold grab_frame
    rw [hcap]
    have hmain := grabLoop_first_succ reads clock cam j fuel 0 f hj
      (by simpa using hs) (fun k hk => by simpa using hpre k hk)
    simpa using hmain

theorem c5_amended_grab_frame_witness :
    ({ FFmpegCam.init with cap := some 0 } : FFmpegCam).cap = some 0 ∧
      (((∀ k, k ≤ 3 → (fun i => if i = 0 then (none : ReadOutcome) else some 5) k = none) →
          grab_frame (fun i => if i = 0 then (none : ReadOutcome) else some 5)
              (fun _ => (1 : Time)) { FFmpegCam.init with cap := some 0 } 3 =
            (none, { FFmpegCam.init with cap := some 0 })) ∧
        (∀ j f, j ≤ 3 →
          (fun i => if i = 0 then (none : ReadOutcome) else some 5) j = some f →
          (∀ k, k < j →
            (fun i => if i = 0 then (none : ReadOutcome) else some 5) k = none) →
          grab_frame (fun i => if i = 0 then (none : ReadOutcome) else some 5)
              (fun _ => (1 : Time)) { FFmpegCam.init with cap := some 0 } 3 =
            (some (f, (fun _ => (1 : Time)) j),
              camSucc { FFmpegCam.init with cap := some 0 } f ((fun _ => (1 : Time)) j)))) :=
  ⟨rfl, c5_amended_grab_frame (fun i => if i = 0 then (none : ReadOutcome) else some 5)
    (fun _ => (1 : Time)) { FFmpegCam.init with cap := some 0 } 3 0 rfl⟩

/-- C5 is false as stated: with a capture handle present, a read error on
the first poll does not make `grab_frame` return failure — the loop retries
the read and returns the second poll's frame. -/
theorem c5_counterexample :
    (fun i => if i = 0 then (none : ReadOutcome) else some 5) 0 = none ∧
      (grab_frame (fun i => if i = 0 then (none : ReadOutcome) else some 5)
          (fun _ => (1 : Time)) { FFmpegCam.init with cap := some 0 } 3).1 =
        some (5, 1) :=
  ⟨rfl, rfl⟩

/-! ### A single failed pull terminates the capture loop (C6) -/

/-- C6 (amended): one failed `grab_frame` — timeout and read error alike,
both surface as `None` and the loop cannot tell them apart — makes
`__capture_loop` break at once: the rest of the schedule is never polled,
the camera state is left as it was, and no reconnect is attempted (the loop
body contains no connect call). -/
theorem c6_amended_loop_terminates (display : Bool) (s : LoopState) (it : Iter)
    (its : List Iter)
    (h : (grab_frame it.reads it.clock s.cam it.fuel).1 = none) :
    captureLoop display s (it :: its) =
      { s with pulls := s.pulls + 1, broke := true } := by
  have hstate := grab_frame_none_state it.reads it.clock s.cam it.fuel h
  cases hg : grab_frame it.reads it.clock s.cam it.fuel with
  | mk res cam' =>
    rw [hg] at h hstate
    simp only at h hstate
    subst h
    simp only [captureLoop, hg]
    rw [hstate]

theorem c6_amended_loop_terminates_witness :
    (grab_frame (fun _ => (none : ReadOutcome)) (fun _ => (0 : Time))
        ({ FFmpegCam.init with cap := some 0 } : FFmpegCam) 1).1 = none ∧
      captureLoop true
          ⟨{ FFmpegCam.init with cap := some 0 }, DisplayStats.init, 0, false⟩
          [⟨fun _ => (none : ReadOutcome), fun _ => (0 : Time), 1, 0, 0⟩] =
        ⟨{ FFmpegCam.init with cap := some 0 }, DisplayStats.init, 1, true⟩ :=
  ⟨rfl, c6_amended_loop_terminates true
    ⟨{ FFmpegCam.init with cap := some 0 }, DisplayStats.init, 0, false⟩
    ⟨fun _ => (none : ReadOutcome), fun _ => (0 : Time), 1, 0, 0⟩ [] rfl⟩

/-- C6 is false as stated: on a two-iteration schedule whose first grab
fails and whose second would succeed, `__capture_loop` stops after a single
pull with the break flag set and no frame ever counted — it never
transitions back to connecting and never reaches the pull that would have
succeeded. -/
theorem c6_counterexample :
    captureLoop true
        ⟨{ FFmpegCam.init with cap := some 0 }, DisplayStats.init, 0, false⟩
        [⟨fun _ => (none : ReadOutcome), fun _ => (0 : Time), 1, 0, 0⟩,
          ⟨fun _ => some 7, fun _ => (9 : Time), 1, 9, 9⟩] =
      ⟨{ FFmpegCam.init with cap := some 0 }, DisplayStats.init, 1, true⟩ ∧
      (grab_frame (fun _ => some 7) (fun _ => (9 : Time))
          { FFmpegCam.init with cap := some 0 } 1).1 = some (7, 9) :=
  ⟨rfl, rfl⟩

/-! ### Delivered never exceeds read (C2) -/

theorem displayFrameStep_count_le (d : DisplayStats) (t now : Time) :
    (displayFrameStep d t now).count ≤ d.count + 1 := by
  unfold displayFrameStep
  by_cases h : d.last = some t <;> simp [h]

theorem seqIter_le (s : SeqState) (it : Iter)
    (h : s.disp.count ≤ s.cam.frame_count) :
    (seqIter s it).disp.count ≤ (seqIter s it).cam.frame_count := by
  cases hg : grab_frame it.reads it.clock s.cam it.fuel with
  | mk res cam' =>
    cases res with
    | none =>
      have hcam : cam' = s.cam := by
        have hst := grab_frame_none_state it.reads it.clock s.cam it.fuel
          (by rw [hg])
        rw [hg] at hst
        exact hst
      simpa [seqIter, hg, hcam] using h
    | some ft =>
      obtain ⟨f, t⟩ := ft
      have hcam : cam' = camSucc s.cam f t := by
        have hst := grab_frame_some_state it.reads it.clock s.cam it.fuel f t
          (by rw [hg])
        rw [hg] at hst
        exact hst
      simp only [seqIter, hg, hcam, camSucc_count]
      calc (displayFrameStep s.disp t it.obsTime).count
          ≤ s.disp.count + 1 := displayFrameStep_count_le _ _ _
        _ ≤ s.cam.frame_count + 1 := by omega

/-- C2: along any sequential schedule, the delivered-frame count (distinct
timestamps displayed) never exceeds the number of successful backend reads
(`frame_count`) for that source: every delivery is gated behind a successful
`grab_frame` that has already bumped the read counter, and duplicate
timestamps are skipped.  Quantifying over all schedules covers every point
of a run. -/
theorem c2_delivered_le_read (s : SeqState) (its : List Iter)
    (h : s.disp.count ≤ s.cam.frame_count) :
    (seqRun s its).disp.count ≤ (seqRun s its).cam.frame_count := by
  induction its generalizing s with
  | nil => simpa [seqRun] using h
  | cons it its ih =>
    simp only [seqRun]
    exact ih (seqIter s it) (seqIter_le s it h)

theorem c2_delivered_le_read_witness :
    DisplayStats.init.count ≤ ({ FFmpegCam.init with cap := some 0 } : FFmpegCam).frame_count ∧
      (seqRun ⟨{ FFmpegCam.init with cap := some 0 }, DisplayStats.init⟩
          [⟨fun _ => some 7, fun _ => (5 : Time), 3, 4, 6⟩]).disp.count ≤
        (seqRun ⟨{ FFmpegCam.init with cap := some 0 }, DisplayStats.init⟩
          [⟨fun _ => some 7, fun _ => (5 : Time), 3, 4, 6⟩]).cam.frame_count :=
  ⟨by decide,
    c2_delivered_le_read ⟨{ FFmpegCam.init with cap := some 0 }, DisplayStats.init⟩
      [⟨fun _ => some 7, fun _ => (5 : Time), 3, 4, 6⟩] (by decide)⟩

/-! ### Delivered timestamps and strict increase (C3) -/

/-- C3 is false as stated: the gate only compares a candidate against the
last-seen timestamp, so a regressing candidate stream is delivered
unfiltered ([2, 1] — not strictly increasing) and a non-adjacent repeat is
delivered twice ([1, 2, 1]). -/
theorem c3_counterexample :
    deliveredList none [(2 : Time), 1] = [2, 1] ∧
      ¬ List.Chain' (· < ·) (deliveredList none [(2 : Time), 1]) ∧
      deliveredList none [(1 : Time), 2, 1] = [1, 2, 1] ∧
      ¬ (deliveredList none [(1 : Time), 2, 1]).Nodup := by
  refine ⟨rfl, ?_, rfl, ?_⟩
  · intro h
    rw [show deliveredList none [(2 : Time), 1] = [2, 1] from rfl] at h
    exact absurd (List.chain'_cons.mp h).1 (by norm_num)
  · intro h
    rw [show deliveredList none [(1 : Time), 2, 1] = [1, 2, 1] from rfl] at h
    exact (List.nodup_cons.mp h).1 (by simp)

theorem chain_delivered (ts : List Time) :
    ∀ t0, List.Chain (· ≤ ·) t0 ts →
      List.Chain' (· < ·) (t0 :: deliveredList (some t0) ts) := by
  induction ts with
  | nil => intro t0 _; simp [deliveredList]
  | cons t ts ih =>
    intro t0 h
    rcases List.chain_cons.mp h with ⟨hle, hch⟩
    by_cases heq : t0 = t
    · subst heq
      simp only [deliveredList, if_pos rfl]
      exact ih t0 hch
    · rw [deliveredList, if_neg (show ¬(some t0 = some t) by simpa using heq)]
      exact List.chain'_cons.mpr ⟨lt_of_le_of_ne hle heq, ih t hch⟩

/-- C3 (amended): the per-source comparison alone only prevents two
consecutive deliveries of the same timestamp; the delivered timestamps are
strictly increasing (no duplicate, no regression) under the additional
assumption that the candidate timestamp stream is non-decreasing, as
produced by a monotone `time.time()` clock. -/
theorem c3_amended_monotone_strict (ts : List Time)
    (h : List.Chain' (· ≤ ·) ts) :
    List.Pairwise (· < ·) (deliveredList none ts) := by
  cases ts with
  | nil => simp [deliveredList]
  | cons t ts =>
    have hch : List.Chain (· ≤ ·) t ts := h
    have hmain := chain_delivered ts t hch
    rw [List.chain'_iff_pairwise] at hmain
    rw [deliveredList, if_neg (show ¬((none : Option Time) = some t) by simp)]
    exact hmain

theorem c3_amended_monotone_strict_witness :
    List.Chain' (· ≤ ·) [(1 : Time), 2, 2, 3] ∧
      List.Pairwise (· < ·) (deliveredList none [(1 : Time), 2, 2, 3]) :=
  ⟨by norm_num [List.chain'_cons, List.chain'_singleton],
    c3_amended_monotone_strict [(1 : Time), 2, 2, 3]
      (by norm_num [List.chain'_cons, List.chain'_singleton])⟩

/-! ### The three concurrency strategies and delivered counts (C1) -/

theorem grab_first_poll (reads : Nat → ReadOutcome) (clock : Nat → Time)
    (cam : FFmpegCam) (fuel : Nat) (hdl : Nat) (f : Frame)
    (hcap : cam.cap = some hdl) (hr : reads 0 = some f) :
    grab_frame reads clock cam fuel = (some (f, clock 0), camSucc cam f (clock 0)) := by
  unfold grab_frame
  rw [hcap]
  cases fuel <;> simp [grabLoop, hr]

theorem captureLoop_no_display (its : List Iter) :
    ∀ s, (captureLoop false s its).disp = s.disp := by
  induction its with
  | nil => intro s; rfl
  | cons it its ih =>
    intro s
    cases hg : grab_frame it.reads it.clock s.cam it.fuel with
    | mk res cam' =>
      cases res with
      | none => simp [captureLoop, hg]
      | some ft =>
        simp only [captureLoop, hg, Bool.false_eq_true, if_false]
        exact ih _

theorem seqRun_all_delivered (its : List Iter) :
    ∀ cam d hdl, cam.cap = some hdl →
      (∀ it ∈ its, ∃ f, it.reads 0 = some f) →
      (∀ u, (its.map fun it => it.clock 0)[0]? = some u → d.last ≠ some u) →
      List.Chain' (· ≠ ·) (its.map fun it => it.clock 0) →
      (seqRun ⟨cam, d⟩ its).disp.count = d.count + its.length := by
  induction its with
  | nil => intro cam d hdl _ _ _ _; rfl
  | cons it its ih =>
    intro cam d hdl hcap hread hhead hch
    obtain ⟨f, hf⟩ := hread it (List.mem_cons_self it its)
    have hgrab := grab_first_poll it.reads it.clock cam it.fuel hdl f hcap hf
    have hlast : d.last ≠ some (it.clock 0) := hhead _ (by simp)
    have hd : displayFrameStep d (it.clock 0) it.obsTime =
        ⟨some (it.clock 0), d.count + 1,
          if d.count + 1 = 2 ∧ d.start = none then some it.obsTime else d.start⟩ := by
      unfold displayFrameStep
      rw [if_neg hlast]
    simp only [seqRun, seqIter, hgrab, hd]
    have hcap' : (camSucc cam f (it.clock 0)).cap = some hdl := by
      rw [camSucc_cap]; exact hcap
    have hhead' : ∀ u, (its.map fun it2 => it2.clock 0)[0]? = some u →
        (some (it.clock 0) : Option Time) ≠ some u := by
      intro u hu
      cases its with
      | nil => simp at hu
      | cons it2 rest =>
        simp only [List.map_cons, List.getElem?_cons_zero, Option.some.injEq] at hu
        have hne := (List.chain'_cons.mp hch).1
        simp only at hne
        rw [hu] at hne
        simpa using hne
    have hrec := ih (camSucc cam f (it.clock 0))
      ⟨some (it.clock 0), d.count + 1,
        if d.count + 1 = 2 ∧ d.start = none then some it.obsTime else d.start⟩
      hdl hcap' (fun it2 h2 => hread it2 (List.mem_cons_of_mem it h2))
      (fun u hu => hhead' u hu) hch.tail
    simp only at hrec
    rw [hrec]
    simp [List.length_cons]
    omega

theorem captureLoop_all_delivered (its : List Iter) :
    ∀ s hdl, s.cam.cap = some hdl →
      (∀ it ∈ its, ∃ f, it.reads 0 = some f) →
      (∀ u, (its.map fun it => it.preTime)[0]? = some u → s.disp.last ≠ some u) →
      List.Chain' (· ≠ ·) (its.map fun it => it.preTime) →
      (captureLoop true s its).disp.count = s.disp.count + its.length := by
  induction its with
  | nil => intro s hdl _ _ _ _; rfl
  | cons it its ih =>
    intro s hdl hcap hread hhead hch
    obtain ⟨f, hf⟩ := hread it (List.mem_cons_self it its)
    have hgrab := grab_first_poll it.reads it.clock s.cam it.fuel hdl f hcap hf
    have hlast : s.disp.last ≠ some it.preTime := hhead _ (by simp)
    have hd : displayFrameStep s.disp it.preTime it.obsTime =
        ⟨some it.preTime, s.disp.count + 1,
          if s.disp.count + 1 = 2 ∧ s.disp.start = none
          then some it.obsTime else s.disp.start⟩ := by
      unfold displayFrameStep
      rw [if_neg hlast]
    simp only [captureLoop, hgrab, hd, eq_self_iff_true, if_true]
    have hhead' : ∀ u, (its.map fun it2 => it2.preTime)[0]? = some u →
        (some it.preTime : Option Time) ≠ some u := by
      intro u hu
      cases its with
      | nil => simp at hu
      | cons it2 rest =>
        simp only [List.map_cons, List.getElem?_cons_zero, Option.some.injEq] at hu
        have hne := (List.chain'_cons.mp hch).1
        simp only at hne
        rw [hu] at hne
        simpa using hne
    have hrec := ih
      { cam := camSucc s.cam f (it.clock 0),
        disp := ⟨some it.preTime, s.disp.count + 1,
          if s.disp.count + 1 = 2 ∧ s.disp.start = none
          then some it.obsTime else s.disp.start⟩,
        pulls := s.pulls + 1, broke := s.broke }
      hdl (by rw [camSucc_cap]; exact hcap)
      (fun it2 h2 => hread it2 (List.mem_cons_of_mem it h2))
      (fun u hu => hhead' u hu) hch.tail
    simp only at hrec
    rw [hrec]
    simp [List.length_cons]
    omega

/-- C1 (amended): the three strategies are not delivery-equivalent.  Under a
common schedule on which every grab succeeds and the de-duplication keys
never repeat consecutively, the sequential and the multiprocess strategies
both deliver one frame per iteration — though keyed differently: the frame's
own timestamp vs the pre-grab wall time — while the multithread strategy,
whose workers run `__capture_loop` with `display=False`, delivers zero
frames to the display consumer. -/
theorem c1_amended_strategies (cam : FFmpegCam) (hdl : Nat) (its : List Iter)
    (hcap : cam.cap = some hdl)
    (hread : ∀ it ∈ its, ∃ f, it.reads 0 = some f)
    (hseq : List.Chain' (· ≠ ·) (its.map fun it => it.clock 0))
    (hmp : List.Chain' (· ≠ ·) (its.map fun it => it.preTime)) :
    (seqRun ⟨cam, DisplayStats.init⟩ its).disp.count = its.length ∧
      (captureLoop true ⟨cam, DisplayStats.init, 0, false⟩ its).disp.count = its.length ∧
      (captureLoop false ⟨cam, DisplayStats.init, 0, false⟩ its).disp.count = 0 := by
  refine ⟨?_, ?_, ?_⟩
  · have h := seqRun_all_delivered its cam DisplayStats.init hdl hcap hread
      (fun u _ => by simp [DisplayStats.init]) hseq
    simpa [DisplayStats.init] using h
  · have h := captureLoop_all_delivered its ⟨cam, DisplayStats.init, 0, false⟩ hdl hcap
      hread (fun u _ => by simp [DisplayStats.init]) hmp
    simpa [DisplayStats.init] using h
  · have h := captureLoop_no_display its ⟨cam, DisplayStats.init, 0, false⟩
    simp only [h]
    rfl

theorem c1_amended_strategies_witness :
    ({ FFmpegCam.init with cap := some 0 } : FFmpegCam).cap = some 0 ∧
      (∀ it ∈ [(⟨fun _ => some 7, fun _ => (1 : Time), 1, 11, 21⟩ : Iter),
          ⟨fun _ => some 8, fun _ => (2 : Time), 1, 12, 22⟩], ∃ f, it.reads 0 = some f) ∧
      List.Chain' (· ≠ ·)
        ([(⟨fun _ => some 7, fun _ => (1 : Time), 1, 11, 21⟩ : Iter),
          ⟨fun _ => some 8, fun _ => (2 : Time), 1, 12, 22⟩].map fun it => it.clock 0) ∧
      List.Chain' (· ≠ ·)
        ([(⟨fun _ => some 7, fun _ => (1 : Time), 1, 11, 21⟩ : Iter),
          ⟨fun _ => some 8, fun _ => (2 : Time), 1, 12, 22⟩].map fun it => it.preTime) ∧
      ((seqRun ⟨{ FFmpegCam.init with cap := some 0 }, DisplayStats.init⟩
          [⟨fun _ => some 7, fun _ => (1 : Time), 1, 11, 21⟩,
            ⟨fun _ => some 8, fun _ => (2 : Time), 1, 12, 22⟩]).disp.count =
        ([(⟨fun _ => some 7, fun _ => (1 : Time), 1, 11, 21⟩ : Iter),
          ⟨fun _ => some 8, fun _ => (2 : Time), 1, 12, 22⟩]).length ∧
      (captureLoop true ⟨{ FFmpegCam.init with cap := some 0 }, DisplayStats.init, 0, false⟩
          [⟨fun _ => some 7, fun _ => (1 : Time), 1, 11, 21⟩,
            ⟨fun _ => some 8, fun _ => (2 : Time), 1, 12, 22⟩]).disp.count =
        ([(⟨fun _ => some 7, fun _ => (1 : Time), 1, 11, 21⟩ : Iter),
          ⟨fun _ => some 8, fun _ => (2 : Time), 1, 12, 22⟩]).length ∧
      (captureLoop false ⟨{ FFmpegCam.init with cap := some 0 }, DisplayStats.init, 0, false⟩
          [⟨fun _ => some 7, fun _ => (1 : Time), 1, 11, 21⟩,
            ⟨fun _ => some 8, fun _ => (2 : Time), 1, 12, 22⟩]).disp.count = 0) :=
  ⟨rfl, fun it hit => by
      simp only [List.mem_cons] at hit
      rcases hit with h | h | h
      · exact ⟨7, by rw [h]⟩
      · exact ⟨8, by rw [h]⟩
      · exact absurd h (List.not_mem_nil it),
    by norm_num [List.chain'_cons, List.chain'_singleton],
    by norm_num [List.chain'_cons, List.chain'_singleton],
    c1_amended_strategies { FFmpegCam.init with cap := some 0 } 0 _ rfl
      (fun it hit => by
        simp only [List.mem_cons] at hit
        rcases hit with h | h | h
        · exact ⟨7, by rw [h]⟩
        · exact ⟨8, by rw [h]⟩
        · exact absurd h (List.not_mem_nil it))
      (by norm_num [List.chain'_cons, List.chain'_singleton])
      (by norm_num [List.chain'_cons, List.chain'_singleton])⟩

/-- C1 is false as stated: with the same single-source schedule whose only
grab succeeds, the sequential strategy (visualized) delivers one frame while
the multithread strategy — whose capture workers are started with
`display=False` — delivers zero, so the strategies do not produce the same
per-source delivered-frame counts. -/
theorem c1_counterexample :
    (seqRun ⟨{ FFmpegCam.init with cap := some 0 }, DisplayStats.init⟩
        [⟨fun _ => some 7, fun _ => (1 : Time), 1, 11, 21⟩]).disp.count = 1 ∧
      (captureLoop false ⟨{ FFmpegCam.init with cap := some 0 }, DisplayStats.init, 0, false⟩
          [⟨fun _ => some 7, fun _ => (1 : Time), 1, 11, 21⟩]).disp.count = 0 ∧
      (1 : Nat) ≠ 0 := by
  refine ⟨by decide, by decide, by decide⟩

/-! ### FPS accounting (C8) -/

theorem foldl_bump (ts : List Time) :
    ∀ n s, List.foldl bump (n, s) ts = (n + ts.length, startAfter n s ts) := by
  induction ts with
  | nil =>
    intro n s
    cases s with
    | some v => rfl
    | none => rcases n with _ | _ | m <;> rfl
  | cons t ts ih =>
    intro n s
    rw [List.foldl_cons,
      show bump (n, s) t = (n + 1, if n + 1 = 2 ∧ s = none then some t else s) from rfl,
      ih]
    simp only [Prod.mk.injEq, List.length_cons]
    refine ⟨by omega, ?_⟩
    cases s with
    | some v =>
      rw [if_neg (by simp)]
      rfl
    | none =>
      rcases n with _ | _ | m
      · rw [if_neg (by simp)]
        simp [startAfter]
      · rw [if_pos (by simp)]
        simp [startAfter]
      · rw [if_neg (fun hc => by omega)]
        simp [startAfter]

theorem seqRun_read_counters (its : List Iter) :
    ∀ cam d, ((seqRun ⟨cam, d⟩ its).cam.frame_count,
        (seqRun ⟨cam, d⟩ its).cam.read_start_time) =
      List.foldl bump (cam.frame_count, cam.read_start_time) (seqTimes cam its) := by
  induction its with
  | nil => intro cam d; rfl
  | cons it its ih =>
    intro cam d
    cases hg : grab_frame it.reads it.clock cam it.fuel with
    | mk res cam' =>
      cases res with
      | none =>
        have hcam : cam' = cam := by
          have hst := grab_frame_none_state it.reads it.clock cam it.fuel (by rw [hg])
          rw [hg] at hst
          exact hst
        simp only [seqRun, seqIter, seqTimes, hg, hcam]
        exact ih cam d
      | some ft =>
        obtain ⟨f, t⟩ := ft
        have hcam : cam' = camSucc cam f t := by
          have hst := grab_frame_some_state it.reads it.clock cam it.fuel f t (by rw [hg])
          rw [hg] at hst
          exact hst
        simp only [seqRun, seqIter, seqTimes, hg, hcam, List.foldl_cons]
        rw [show bump (cam.frame_count, cam.read_start_time) t =
          ((camSucc cam f t).frame_count, (camSucc cam f t).read_start_time) from rfl]
        exact ih (camSucc cam f t) (displayFrameStep d t it.obsTime)

theorem seqRun_disp_counters (its : List Iter) :
    ∀ cam d, ((seqRun ⟨cam, d⟩ its).disp.count, (seqRun ⟨cam, d⟩ its).disp.start) =
      List.foldl bump (d.count, d.start) (seqObsTimes cam d.last its) := by
  induction its with
  | nil => intro cam d; rfl
  | cons it its ih =>
    intro cam d
    cases hg : grab_frame it.reads it.clock cam it.fuel with
    | mk res cam' =>
      cases res with
      | none =>
        have hcam : cam' = cam := by
          have hst := grab_frame_none_state it.reads it.clock cam it.fuel (by rw [hg])
          rw [hg] at hst
          exact hst
        simp only [seqRun, seqIter, seqObsTimes, hg, hcam]
        exact ih cam d
      | some ft =>
        obtain ⟨f, t⟩ := ft
        have hcam : cam' = camSucc cam f t := by
          have hst := grab_frame_some_state it.reads it.clock cam it.fuel f t (by rw [hg])
          rw [hg] at hst
          exact hst
        by_cases hlast : d.last = some t
        · have hd : displayFrameStep d t it.obsTime = d := by
            unfold displayFrameStep
            rw [if_pos hlast]
          simp only [seqRun, seqIter, seqObsTimes, hg, hcam, hd, if_pos hlast]
          exact ih (camSucc cam f t) d
        · have hd : displayFrameStep d t it.obsTime =
              ⟨some t, d.count + 1,
                if d.count + 1 = 2 ∧ d.start = none then some it.obsTime else d.start⟩ := by
            unfold displayFrameStep
            rw [if_neg hlast]
          simp only [seqRun, seqIter, seqObsTimes, hg, hcam, hd, if_neg hlast,
            List.foldl_cons]
          rw [show bump (d.count, d.start) it.obsTime =
            ((d.count + 1 : Nat),
              if d.count + 1 = 2 ∧ d.start = none then some it.obsTime else d.start) from rfl]
          exact ih (camSucc cam f t)
            ⟨some t, d.count + 1,
              if d.count + 1 = 2 ∧ d.start = none then some it.obsTime else d.start⟩

theorem seqRun_fresh_read (cam : FFmpegCam) (d : DisplayStats) (its : List Iter)
    (h0 : cam.frame_count = 0) (h1 : cam.read_start_time = none) :
    (seqRun ⟨cam, d⟩ its).cam.frame_count = (seqTimes cam its).length ∧
      (seqRun ⟨cam, d⟩ its).cam.read_start_time = (seqTimes cam its)[1]? := by
  have h := seqRun_read_counters its cam d
  rw [h0, h1, foldl_bump] at h
  have ha := congrArg Prod.fst h
  have hb := congrArg Prod.snd h
  simp only at ha hb
  refine ⟨by simpa using ha, ?_⟩
  rw [hb]
  rfl

theorem seqRun_fresh_disp (cam : FFmpegCam) (its : List Iter) :
    (seqRun ⟨cam, DisplayStats.init⟩ its).disp.count = (seqObsTimes cam none its).length ∧
      (seqRun ⟨cam, DisplayStats.init⟩ its).disp.start = (seqObsTimes cam none its)[1]? := by
  have h := seqRun_disp_counters its cam DisplayStats.init
  simp only [DisplayStats.init] at h
  rw [foldl_bump] at h
  have ha := congrArg Prod.fst h
  have hb := congrArg Prod.snd h
  simp only at ha hb
  constructor
  · simp only [DisplayStats.init]
    simpa using ha
  · simp only [DisplayStats.init]
    rw [hb]
    rfl

theorem evaluateFps_of_base (count : Nat) (t2 now : Time) (ht : t2 ≠ 0)
    (hp : now - t2 > 0) :
    evaluateFps count (some t2) now = some (((count : ℚ) - 1) / (now - t2)) := by
  simp only [evaluateFps]
  rw [if_neg ht, if_pos hp]

/-- C8 (amended): in the final assignment the claim holds, for read FPS and
display FPS alike: the counters and time bases evolve so that once at least
two samples exist the reported rate is `(count − 1) / elapsed` with the time
base at the second sample, with fewer than two samples no rate is reported
("Not enough frames"), and the first sample is still counted in the totals.
The cited `assignment3` report variant instead divides the undecremented
count by the elapsed time since the FIRST displayed sample
(`c8_counterexample`). -/
theorem c8_amended_fps (cam : FFmpegCam) (its : List Iter) (now : Time)
    (h0 : cam.frame_count = 0) (h1 : cam.read_start_time = none) :
    ((seqRun ⟨cam, DisplayStats.init⟩ its).cam.frame_count =
        (seqTimes cam its).length ∧
      (∀ t2, (seqTimes cam its)[1]? = some t2 → t2 ≠ 0 → now - t2 > 0 →
        evaluateFps (seqRun ⟨cam, DisplayStats.init⟩ its).cam.frame_count
            (seqRun ⟨cam, DisplayStats.init⟩ its).cam.read_start_time now =
          some ((((seqTimes cam its).length : ℚ) - 1) / (now - t2))) ∧
      ((seqTimes cam its).length < 2 →
        evaluateFps (seqRun ⟨cam, DisplayStats.init⟩ its).cam.frame_count
            (seqRun ⟨cam, DisplayStats.init⟩ its).cam.read_start_time now = none)) ∧
    ((seqRun ⟨cam, DisplayStats.init⟩ its).disp.count =
        (seqObsTimes cam none its).length ∧
      (∀ t2, (seqObsTimes cam none its)[1]? = some t2 → t2 ≠ 0 → now - t2 > 0 →
        evaluateFps (seqRun ⟨cam, DisplayStats.init⟩ its).disp.count
            (seqRun ⟨cam, DisplayStats.init⟩ its).disp.start now =
          some ((((seqObsTimes cam none its).length : ℚ) - 1) / (now - t2))) ∧
      ((seqObsTimes cam none its).length < 2 →
        evaluateFps (seqRun ⟨cam, DisplayStats.init⟩ its).disp.count
            (seqRun ⟨cam, DisplayStats.init⟩ its).disp.start now = none)) := by
  obtain ⟨hrc, hrs⟩ := seqRun_fresh_read cam DisplayStats.init its h0 h1
  obtain ⟨hdc, hds⟩ := seqRun_fresh_disp cam its
  refine ⟨⟨hrc, ?_, ?_⟩, hdc, ?_, ?_⟩
  · intro t2 ht2 hz hp
    rw [hrc, hrs, ht2]
    exact evaluateFps_of_base _ t2 now hz hp
  · intro hlen
    rw [hrs, List.getElem?_eq_none (show (seqTimes cam its).length ≤ 1 by omega)]
    rfl
  · intro t2 ht2 hz hp
    rw [hdc, hds, ht2]
    exact evaluateFps_of_base _ t2 now hz hp
  · intro hlen
    rw [hds, List.getElem?_eq_none (show (seqObsTimes cam none its).length ≤ 1 by omega)]
    rfl

theorem c8_amended_fps_witness :
    wCam.frame_count = 0 ∧ wCam.read_start_time = none ∧
      (((seqRun ⟨wCam, DisplayStats.init⟩ wIts).cam.frame_count =
          (seqTimes wCam wIts).length ∧
        (∀ t2, (seqTimes wCam wIts)[1]? = some t2 → t2 ≠ 0 → (5 : Time) - t2 > 0 →
          evaluateFps (seqRun ⟨wCam, DisplayStats.init⟩ wIts).cam.frame_count
              (seqRun ⟨wCam, DisplayStats.init⟩ wIts).cam.read_start_time 5 =
            some ((((seqTimes wCam wIts).length : ℚ) - 1) / (5 - t2))) ∧
        ((seqTimes wCam wIts).length < 2 →
          evaluateFps (seqRun ⟨wCam, DisplayStats.init⟩ wIts).cam.frame_count
              (seqRun ⟨wCam, DisplayStats.init⟩ wIts).cam.read_start_time 5 = none)) ∧
      ((seqRun ⟨wCam, DisplayStats.init⟩ wIts).disp.count =
          (seqObsTimes wCam none wIts).length ∧
        (∀ t2, (seqObsTimes wCam none wIts)[1]? = some t2 → t2 ≠ 0 → (5 : Time) - t2 > 0 →
          evaluateFps (seqRun ⟨wCam, DisplayStats.init⟩ wIts).disp.count
              (seqRun ⟨wCam, DisplayStats.init⟩ wIts).disp.start 5 =
            some ((((seqObsTimes wCam none wIts).length : ℚ) - 1) / (5 - t2))) ∧
        ((seqObsTimes wCam none wIts).length < 2 →
          evaluateFps (seqRun ⟨wCam, DisplayStats.init⟩ wIts).disp.count
              (seqRun ⟨wCam, DisplayStats.init⟩ wIts).disp.start 5 = none))) :=
  ⟨rfl, rfl, c8_amended_fps wCam wIts 5 rfl rfl⟩

/-- C8 is false for the cited `RTSPStreamer.run` of
`run_ffmpeg_oop_multi_proc_report.py`: after three new frames observed at
times 1, 2 and 3, its reported display FPS at time 5 is
`count / (now − firstSample) = 3 / 4`, while the claimed formula
`(count − 1) / (now − secondSample)` gives `2 / 3`. -/
theorem c8_counterexample :
    procDisplayStep (procDisplayStep (procDisplayStep ⟨none, 0, none⟩ 1 1) 2 2) 3 3 =
      ⟨some 3, 3, some 1⟩ ∧
      procDisplayFps ⟨some 3, 3, some 1⟩ 5 = 3 / 4 ∧
      (((3 : ℚ) - 1) / (5 - 2)) = 2 / 3 ∧
      (3 / 4 : ℚ) ≠ 2 / 3 := by
  refine ⟨by decide, ?_, by norm_num, by norm_num⟩
  simp only [procDisplayFps]
  rw [if_neg (by norm_num : ¬(1 : Time) = 0)]
  rw [show max ((5 : Time) - 1) (1 / 1000000) = 4 by
    rw [max_eq_left (by norm_num)]
    norm_num]
  norm_num

end Onboarding
